import Mathlib

/-!
# Verification of the hyperliquid-exporter monitoring core

Shallow embedding, in Lean 4, of the status-polling / jail-detection /
remediation-scheduling engine of the `hyperliquid-exporter` repository, and
proofs settling the frozen claims about it.

Embedded source files:
* `hyper_liquid_validator_data.py` — `APIRateLimiter.wait_if_needed`,
  `HyperLiquidAPI._exponential_backoff`, `HyperLiquidAPI._handle_rate_limit`,
  `HyperLiquidAPI.fetch_validator_data`;
* `hyperliquid_validator_safeguard.py` — `ValidatorMonitor.schedule_unjail`,
  `ValidatorMonitor.unjail_validator`, `monitor_loop`, `fetch_validator_data`
  (cached), `ConfigLoader.validate_config`, `main`;
* `telegram_alert.py` — `ValidatorMonitor.monitor_loop`,
  `ValidatorMonitor.unjail_validator`, `main`;
* `twillio_alert.py` — `HyperliquidMonitor.monitor_loop`.

Time is modelled in whole seconds as `Nat`.  Machine state is passed
explicitly; the cooperative asyncio event loop of the safeguard monitor is
modelled as an event sequence (see `SGEvent`).
-/

namespace HLExporter

/-! ## APIRateLimiter (`hyper_liquid_validator_data.py`, lines 38-59)

`wait_if_needed` of `APIRateLimiter`:

```
now = datetime.now()
while self.calls and (now - self.calls[0]) > self.window:
    self.calls.popleft()
if len(self.calls) >= self.max_calls:
    wait_time = (self.calls[0] + self.window - now).total_seconds()
    if wait_time > 0:
        time.sleep(wait_time)
self.calls.append(now)
```

The deque of call timestamps is a `List Nat`, oldest first.  The window is
60 seconds (`timedelta(minutes=1)`).  A call arriving at `now` prunes the
entries strictly older than the window (`now - c > 60`, written `c + 60 < now`
to avoid truncated subtraction), then, if the deque holds at least
`max_calls` entries, sleeps until `calls[0] + 60`, and finally appends `now`
(the arrival time captured before the sleep, exactly as the code does).
`rlStep` returns the new deque and the wall-clock time at which
`wait_if_needed` returns. -/

/-- Window length of `APIRateLimiter` (`timedelta(minutes=1)`), in seconds. -/
def rlWindow : Nat := 60

/-- Default `MAX_CALLS_PER_MINUTE` of `hyper_liquid_validator_data.py`. -/
def MAX_CALLS_PER_MINUTE : Nat := 30

/-- The pruning loop of `wait_if_needed`: pop from the front while the
front entry is strictly older than the window (`now - calls[0] > window`,
written additively). -/
def rlPrune (calls : List Nat) (now : Nat) : List Nat :=
  calls.dropWhile (fun c => decide (c + rlWindow < now))

/-- The return time of `wait_if_needed`: if the pruned deque still holds at
least `max_calls` entries, sleep for `calls[0] + window - now` when that is
positive (so return at `calls[0] + window`, i.e. `max now (calls[0] +
window)`); otherwise return immediately. -/
def rlRet (maxCalls : Nat) (pruned : List Nat) (now : Nat) : Nat :=
  if maxCalls ≤ pruned.length then
    match pruned with
    | [] => now
    | c0 :: _ => max now (c0 + rlWindow)
  else now

/-- One execution of `APIRateLimiter.wait_if_needed` arriving at time `now`:
prune, possibly sleep, then append the arrival time `now` (the timestamp
captured before the sleep, exactly as the code appends the pre-sleep
`now`).  Returns the updated deque (oldest first) and the time at which the
call returns. -/
def rlStep (maxCalls : Nat) (calls : List Nat) (now : Nat) : List Nat × Nat :=
  (rlPrune calls now ++ [now], rlRet maxCalls (rlPrune calls now) now)

/-- Number of recorded calls whose age at time `t` is at most the window —
the complement of the pruning criterion `now - c > window`: exactly the
entries `wait_if_needed` itself treats as inside the trailing window. -/
def rlInWindow (calls : List Nat) (t : Nat) : Nat :=
  calls.countP (fun c => decide (t ≤ c + rlWindow))

/-- Number of recorded calls strictly newer than the window boundary at
time `t` (age strictly below the window length). -/
def rlStrictInWindow (calls : List Nat) (t : Nat) : Nat :=
  calls.countP (fun c => decide (t < c + rlWindow))

/-- Sequential executions of `wait_if_needed`: `RLReach maxCalls calls t`
holds when the deque `calls` with last return time `t` is reachable from the
empty limiter by admission requests each of which arrives strictly after the
previous request returned (the first request arrives at any time). -/
inductive RLReach (maxCalls : Nat) : List Nat → Nat → Prop
  | init : RLReach maxCalls [] 0
  | step {calls : List Nat} {t now : Nat} (h : RLReach maxCalls calls t)
      (hnow : t < now ∨ calls = []) :
      RLReach maxCalls (rlStep maxCalls calls now).1 (rlStep maxCalls calls now).2

/-- Claim C2 as stated: along every sequential run of `wait_if_needed`, at
the moment a call returns, the recorded calls inside the trailing window
(counting the just-recorded call, window membership as the code's own
pruning criterion: age at most the window) never exceed `max_calls`. -/
def rateLimiterQuotaClaim : Prop :=
  ∀ (calls : List Nat) (t : Nat),
    RLReach MAX_CALLS_PER_MINUTE calls t →
      rlInWindow calls t ≤ MAX_CALLS_PER_MINUTE

/-- Iterate `wait_if_needed` from a given (deque, last-return) state over a
list of arrival times, oldest arrival first. -/
def rlRunFrom (maxCalls : Nat) (s : List Nat × Nat) : List Nat → List Nat × Nat
  | [] => s
  | a :: rest => rlRunFrom maxCalls (rlStep maxCalls s.1 a) rest

/-- Run the rate limiter from its initial state over a list of arrivals. -/
def rlRun (maxCalls : Nat) (arrivals : List Nat) : List Nat × Nat :=
  rlRunFrom maxCalls ([], 0) arrivals

/-- Each arrival is strictly later than the return time of the previous
call (or the deque is still empty). -/
def rlValidFrom (maxCalls : Nat) (s : List Nat × Nat) : List Nat → Bool
  | [] => true
  | a :: rest =>
      (decide (s.2 < a) || s.1.isEmpty)
        && rlValidFrom maxCalls (rlStep maxCalls s.1 a) rest

/-- A valid list of arrivals, started from the empty limiter. -/
def rlValidArrivals (maxCalls : Nat) (arrivals : List Nat) : Bool :=
  rlValidFrom maxCalls ([], 0) arrivals

lemma rlReach_rlRunFrom {maxCalls : Nat} :
    ∀ (l : List Nat) (s : List Nat × Nat), RLReach maxCalls s.1 s.2 →
      rlValidFrom maxCalls s l = true →
      RLReach maxCalls (rlRunFrom maxCalls s l).1 (rlRunFrom maxCalls s l).2 := by
  intro l
  induction l with
  | nil => intro s hs _; exact hs
  | cons a rest ih =>
    intro s hs hv
    simp only [rlValidFrom, Bool.and_eq_true, Bool.or_eq_true, decide_eq_true_eq,
      List.isEmpty_iff] at hv
    exact ih _ (RLReach.step hs hv.1) hv.2

lemma rlReach_rlRun {maxCalls : Nat} (arrivals : List Nat)
    (h : rlValidArrivals maxCalls arrivals = true) :
    RLReach maxCalls (rlRun maxCalls arrivals).1 (rlRun maxCalls arrivals).2 :=
  rlReach_rlRunFrom arrivals ([], 0) RLReach.init h

/-- The arrival sequence refuting claim C2: thirty calls one second apart
(seconds 0..29), then a thirty-first call at second 30. -/
def rlCounterArrivals : List Nat := List.range 31

/-- C2 counterexample: with the default quota of 30 calls per 60-second
window, thirty back-to-back calls at seconds 0..29 followed by one more at
second 30 make `wait_if_needed` sleep until second 60 and then record the
new call; at that return instant the deque holds 31 timestamps none of
which is older than the window (the oldest, second 0, is aged exactly 60 s,
which the code's own pruning criterion keeps), so 31 > 30 recorded calls
lie within the trailing window and the claimed quota bound fails. -/
theorem rateLimiter_quota_counterexample : ¬ rateLimiterQuotaClaim := by
  intro hclaim
  have hreach : RLReach MAX_CALLS_PER_MINUTE
      (rlRun MAX_CALLS_PER_MINUTE rlCounterArrivals).1
      (rlRun MAX_CALLS_PER_MINUTE rlCounterArrivals).2 :=
    rlReach_rlRun rlCounterArrivals (by decide)
  have hle := hclaim _ _ hreach
  have hcount : rlInWindow (rlRun MAX_CALLS_PER_MINUTE rlCounterArrivals).1
      (rlRun MAX_CALLS_PER_MINUTE rlCounterArrivals).2 = 31 := by decide
  rw [hcount] at hle
  exact absurd hle (by decide)

lemma rlDropWhile_bound {now : Nat} :
    ∀ (l : List Nat), l.Pairwise (· ≤ ·) →
      ∀ c ∈ rlPrune l now, now ≤ c + rlWindow := by
  intro l
  induction l with
  | nil => intro _ c hc; simp [rlPrune, List.dropWhile] at hc
  | cons a rest ih =>
    intro hp c hc
    rw [List.pairwise_cons] at hp
    unfold rlPrune at hc
    by_cases ha : a + rlWindow < now
    · rw [List.dropWhile_cons_of_pos (by simpa using ha)] at hc
      exact ih hp.2 c hc
    · rw [List.dropWhile_cons_of_neg (by simpa using ha)] at hc
      rcases List.mem_cons.mp hc with rfl | hc
      · omega
      · have := hp.1 c hc; omega

/-- One step of `wait_if_needed` preserves the run invariant: the deque is
nondecreasing, every entry is at most the last return time, and the count
of entries strictly inside the window at the return time is within quota. -/
lemma rlStep_invariant {maxCalls : Nat} (hmax : 1 ≤ maxCalls)
    {calls : List Nat} {t now : Nat}
    (hpair : calls.Pairwise (· ≤ ·)) (hmem : ∀ c ∈ calls, c ≤ t)
    (hcnt : rlStrictInWindow calls t ≤ maxCalls)
    (hnow : t < now ∨ calls = []) :
    (rlStep maxCalls calls now).1.Pairwise (· ≤ ·) ∧
      (∀ c ∈ (rlStep maxCalls calls now).1, c ≤ (rlStep maxCalls calls now).2) ∧
      rlStrictInWindow (rlStep maxCalls calls now).1
        (rlStep maxCalls calls now).2 ≤ maxCalls := by
  rcases hnow with hlt | rfl
  · -- the arrival is strictly after the previous return
    have hsub : List.Sublist (rlPrune calls now) calls := (List.dropWhile_suffix _).sublist
    have hppair : (rlPrune calls now).Pairwise (· ≤ ·) := hpair.sublist hsub
    have hple : ∀ c ∈ rlPrune calls now, c ≤ t := fun c hc => hmem c (hsub.subset hc)
    have hwin : ∀ c ∈ rlPrune calls now, now ≤ c + rlWindow :=
      rlDropWhile_bound calls hpair
    -- every pruned-deque entry is strictly inside the window at time t
    have hplen : (rlPrune calls now).length ≤ maxCalls := by
      have h1 : (rlPrune calls now).countP (fun c => decide (t < c + rlWindow))
          = (rlPrune calls now).length :=
        List.countP_eq_length.mpr (by
          intro c hc
          have := hwin c hc
          simp only [decide_eq_true_eq]
          omega)
      have h2 : (rlPrune calls now).countP (fun c => decide (t < c + rlWindow))
          ≤ calls.countP (fun c => decide (t < c + rlWindow)) :=
        hsub.countP_le _
      unfold rlStrictInWindow at hcnt
      omega
    have hretnow : now ≤ rlRet maxCalls (rlPrune calls now) now := by
      unfold rlRet
      split
      · cases rlPrune calls now with
        | nil => exact Nat.le_refl _
        | cons c0 rest => exact Nat.le_max_left _ _
      · exact Nat.le_refl _
    refine ⟨?_, ?_, ?_⟩
    · -- the new deque stays nondecreasing
      rw [rlStep]
      refine List.pairwise_append.mpr ⟨hppair, List.pairwise_singleton _ _, ?_⟩
      intro a ha b hb
      rw [List.mem_singleton] at hb
      subst hb
      have := hple a ha
      omega
    · -- every entry is at most the return time
      rw [rlStep]
      intro c hc
      rcases List.mem_append.mp hc with hc | hc
      · have := hple c hc
        omega
      · rw [List.mem_singleton] at hc
        subst hc
        exact hretnow
    · -- quota bound at the return time
      rw [rlStep]
      unfold rlStrictInWindow
      cases hq : rlPrune calls now with
      | nil =>
        rw [hq] at hplen
        simp only [List.nil_append]
        calc List.countP (fun c => decide (rlRet maxCalls [] now < c + rlWindow)) [now]
            ≤ 1 := List.countP_le_length _
          _ ≤ maxCalls := hmax
      | cons c0 rest =>
        rw [hq] at hplen
        simp only [List.countP_append]
        have hc2 : List.countP
            (fun c => decide (rlRet maxCalls (c0 :: rest) now < c + rlWindow))
            [now] ≤ 1 := List.countP_le_length _
        by_cases hover : maxCalls ≤ (c0 :: rest).length
        · -- over quota: the head is pushed exactly to the window boundary
          have hret : rlRet maxCalls (c0 :: rest) now = max now (c0 + rlWindow) := by
            unfold rlRet
            rw [if_pos hover]
          have hhead : decide (rlRet maxCalls (c0 :: rest) now < c0 + rlWindow)
              = false := by
            simp only [hret, decide_eq_false_iff_not]
            exact Nat.not_lt.mpr (Nat.le_max_right _ _)
          have hc1 : List.countP
              (fun c => decide (rlRet maxCalls (c0 :: rest) now < c + rlWindow))
              (c0 :: rest) ≤ rest.length := by
            rw [List.countP_cons, hhead]
            simp only [Bool.false_eq_true, if_false, Nat.add_zero]
            exact List.countP_le_length _
          have hlen' : rest.length + 1 ≤ maxCalls := by simpa using hplen
          omega
        · -- under quota: no sleep, the deque is short
          have hc1 : List.countP
              (fun c => decide (rlRet maxCalls (c0 :: rest) now < c + rlWindow))
              (c0 :: rest) ≤ (c0 :: rest).length := List.countP_le_length _
          have hshort : (c0 :: rest).length < maxCalls := Nat.lt_of_not_le hover
          simp only [List.length_cons] at hc1 hshort
          omega
  · -- first call: the deque is empty
    have hp : rlPrune ([] : List Nat) now = [] := rfl
    have hret : rlRet maxCalls ([] : List Nat) now = now := by
      unfold rlRet
      rw [if_neg (by simp only [List.length_nil]; omega)]
    refine ⟨?_, ?_, ?_⟩
    · rw [rlStep, hp]
      exact List.pairwise_singleton _ _
    · rw [rlStep, hp]
      simp only [List.nil_append, hret]
      intro c hc
      rw [List.mem_singleton] at hc
      omega
    · rw [rlStep, hp]
      unfold rlStrictInWindow
      simp only [List.nil_append, hret, List.countP_cons, List.countP_nil]
      have hd : decide (now < now + rlWindow) = true := by
        simp [rlWindow]
      rw [hd]
      simpa using hmax

/-- Invariant carried along every valid sequential run of the limiter. -/
lemma rlReach_invariant {maxCalls : Nat} (hmax : 1 ≤ maxCalls)
    {calls : List Nat} {t : Nat} (h : RLReach maxCalls calls t) :
    calls.Pairwise (· ≤ ·) ∧ (∀ c ∈ calls, c ≤ t) ∧
      rlStrictInWindow calls t ≤ maxCalls := by
  induction h with
  | init => exact ⟨List.Pairwise.nil, by simp, by simp [rlStrictInWindow]⟩
  | step h hnow ih => exact rlStep_invariant hmax ih.1 ih.2.1 ih.2.2 hnow

/-- C2 amended: whenever `wait_if_needed` returns and records a new call,
the number of recorded calls whose timestamps lie strictly within the
trailing 60-second window (age strictly below 60 s), counting the new
call, is at most `max_calls` — provided each admission request arrives
strictly after the previous one returned.  (Calls aged exactly 60 s at the
return instant remain recorded, which is what refutes the claim with the
code's own boundary-inclusive window membership.) -/
theorem rateLimiter_strict_quota {maxCalls : Nat} {calls : List Nat} {t : Nat}
    (hmax : 1 ≤ maxCalls) (h : RLReach maxCalls calls t) :
    rlStrictInWindow calls t ≤ maxCalls :=
  (rlReach_invariant hmax h).2.2

/-- Witness for `rateLimiter_strict_quota` at the counterexample run: the
strict-window count stays within the default quota of 30. -/
theorem rateLimiter_strict_quota_witness :
    rlStrictInWindow (rlRun 30 (List.range 31)).1 (rlRun 30 (List.range 31)).2 ≤ 30 :=
  rateLimiter_strict_quota (by decide) (rlReach_rlRun (List.range 31) (by decide))

/-! ## HyperLiquidAPI retry/backoff (`hyper_liquid_validator_data.py`, 180-238)

`fetch_validator_data` loops `while attempt < MAX_RETRIES`; each iteration
makes one request, whose outcome is one of: HTTP 200 (return data and reset
`self.backoff_time = INITIAL_BACKOFF`), HTTP 429 (sleep for
`int(response.headers.get('Retry-After', DEFAULT_RETRY_AFTER))` seconds),
or an exception (`_exponential_backoff()`: sleep `min(self.backoff_time,
MAX_BACKOFF)` then `self.backoff_time *= 2`).  Every non-200 iteration then
increments `attempt`; when the loop ends the function returns `None`.
The stored `backoff_time` lives on the `HyperLiquidAPI` instance and
persists from one `fetch_validator_data` call to the next. -/

/-- `INITIAL_BACKOFF` of `hyper_liquid_validator_data.py` (seconds). -/
def INITIAL_BACKOFF : Nat := 1

/-- `MAX_BACKOFF` of `hyper_liquid_validator_data.py` (seconds). -/
def MAX_BACKOFF : Nat := 300

/-- `DEFAULT_RETRY_AFTER` of `hyper_liquid_validator_data.py` (seconds). -/
def DEFAULT_RETRY_AFTER : Nat := 60

/-- `MAX_RETRIES` of `hyper_liquid_validator_data.py`. -/
def MAX_RETRIES : Nat := 3

/-- Outcome of one HTTP attempt inside `fetch_validator_data`. -/
inductive FetchOutcome
  | ok
  | rateLimited (retryAfter : Option Nat)
  | failed

/-- `HyperLiquidAPI._handle_rate_limit`: the `Retry-After` header value, or
`DEFAULT_RETRY_AFTER` when the header is absent. -/
def handle_rate_limit (retryAfter : Option Nat) : Nat :=
  retryAfter.getD DEFAULT_RETRY_AFTER

/-- `HyperLiquidAPI._exponential_backoff`: the slept delay
`min(backoff_time, MAX_BACKOFF)` and the doubled stored backoff. -/
def exponential_backoff (backoff : Nat) : Nat × Nat :=
  (min backoff MAX_BACKOFF, backoff * 2)

/-- The retry loop of `fetch_validator_data`.  `fuel` is the number of
attempts remaining (`MAX_RETRIES - attempt`), `backoff` the stored
`self.backoff_time`; one `FetchOutcome` is consumed per attempt (callers
supply at least `fuel` outcomes).  Returns the result (`some ()` for
returned data, `none` for "max retries reached"), the list of sleep delays
in order, and the final stored backoff. -/
def fetchLoop : Nat → Nat → List FetchOutcome → Option Unit × List Nat × Nat
  | 0, backoff, _ => (none, [], backoff)
  | _ + 1, backoff, [] => (none, [], backoff)
  | fuel + 1, backoff, o :: rest =>
    match o with
    | .ok => (some (), [], INITIAL_BACKOFF)
    | .rateLimited h =>
        let r := fetchLoop fuel backoff rest
        (r.1, handle_rate_limit h :: r.2.1, r.2.2)
    | .failed =>
        let r := fetchLoop fuel (exponential_backoff backoff).2 rest
        (r.1, (exponential_backoff backoff).1 :: r.2.1, r.2.2)

/-- `HyperLiquidAPI.fetch_validator_data`, entered with stored backoff
`backoff` and per-attempt outcomes `outs`. -/
def fetch_validator_data (backoff : Nat) (outs : List FetchOutcome) :
    Option Unit × List Nat × Nat :=
  fetchLoop MAX_RETRIES backoff outs

/-- `n` consecutive calls to `fetch_validator_data` on the same
`HyperLiquidAPI` instance, every attempt failing with an exception:
the concatenated sleep delays and the final stored backoff. -/
def failRun (backoff : Nat) : Nat → List Nat × Nat
  | 0 => ([], backoff)
  | n + 1 =>
    let r := fetch_validator_data backoff (List.replicate MAX_RETRIES .failed)
    let rest := failRun r.2.2 n
    (r.2.1 ++ rest.1, rest.2)

/-- The delay schedule of `k` consecutive exception attempts starting from
stored backoff `b`: each sleeps `min` of the stored backoff and the cap,
then doubles the stored backoff. -/
def backoffDelays (b : Nat) : Nat → List Nat
  | 0 => []
  | k + 1 => min b MAX_BACKOFF :: backoffDelays (b * 2) k

lemma fetch_validator_data_all_failed (b : Nat) :
    fetch_validator_data b (List.replicate MAX_RETRIES .failed)
      = (none, [min b MAX_BACKOFF, min (b * 2) MAX_BACKOFF,
          min (b * 2 * 2) MAX_BACKOFF], b * 2 * 2 * 2) := by
  simp [fetch_validator_data, MAX_RETRIES, List.replicate, fetchLoop,
    exponential_backoff]

lemma failRun_delays (n : Nat) : ∀ b : Nat,
    (failRun b n).1 = backoffDelays b (3 * n) ∧ (failRun b n).2 = b * 2 ^ (3 * n) := by
  induction n with
  | zero => intro b; simp [failRun, backoffDelays]
  | succ n ih =>
    intro b
    have h3 : 3 * (n + 1) = ((3 * n) + 1 + 1) + 1 := by omega
    rw [failRun, fetch_validator_data_all_failed, h3]
    obtain ⟨ih1, ih2⟩ := ih (b * 2 * 2 * 2)
    constructor
    · rw [backoffDelays, backoffDelays, backoffDelays]
      simp only [ih1]
      ring_nf
      simp [List.cons_append, List.nil_append]
    · rw [ih2]
      ring

lemma backoffDelays_getD : ∀ (k i b : Nat), i < k →
    (backoffDelays b k).getD i 0 = min (b * 2 ^ i) MAX_BACKOFF := by
  intro k
  induction k with
  | zero => intro i b hi; omega
  | succ k ih =>
    intro i b hi
    cases i with
    | zero => simp [backoffDelays]
    | succ i =>
      rw [backoffDelays]
      simp only [List.getD_cons_succ]
      rw [ih i (b * 2) (by omega)]
      ring_nf

lemma backoffDelays_length : ∀ (k b : Nat), (backoffDelays b k).length = k := by
  intro k
  induction k with
  | zero => intro b; rfl
  | succ k ih => intro b; simp [backoffDelays, ih]

lemma fetchLoop_success_resets : ∀ (fuel b : Nat) (outs : List FetchOutcome),
    (fetchLoop fuel b outs).1.isSome = true →
    (fetchLoop fuel b outs).2.2 = INITIAL_BACKOFF := by
  intro fuel
  induction fuel with
  | zero => intro b outs h; simp [fetchLoop] at h
  | succ fuel ih =>
    intro b outs h
    cases outs with
    | nil => simp [fetchLoop] at h
    | cons o rest =>
      cases o with
      | ok => simp [fetchLoop]
      | rateLimited hdr =>
        rw [fetchLoop] at h ⊢
        exact ih b rest h
      | failed =>
        rw [fetchLoop] at h ⊢
        exact ih _ rest h

/-- C3 (confirmed): over any run of consecutive exception-failing attempts
(spanning `n` calls to `fetch_validator_data`, three attempts each) started
with the stored backoff at `INITIAL_BACKOFF = 1`, the `i`-th observed sleep
is `min (2^i) MAX_BACKOFF` — the initial delay of 1 s, doubling on each
further failed attempt, capped at 300 s — with exactly `MAX_RETRIES = 3`
attempts per call; and any fetch that succeeds (HTTP 200 on some attempt)
resets the stored backoff to `INITIAL_BACKOFF`, so the next failure run
starts again at the initial delay. -/
theorem backoff_schedule (n i : Nat) (hi : i < 3 * n) :
    (failRun INITIAL_BACKOFF n).1.getD i 0 = min (2 ^ i) MAX_BACKOFF ∧
    (failRun INITIAL_BACKOFF n).1.length = 3 * n ∧
    (∀ b outs, (fetch_validator_data b outs).1.isSome = true →
      (fetch_validator_data b outs).2.2 = INITIAL_BACKOFF) := by
  obtain ⟨h1, _⟩ := failRun_delays n INITIAL_BACKOFF
  refine ⟨?_, ?_, ?_⟩
  · rw [h1, backoffDelays_getD (3 * n) i INITIAL_BACKOFF hi]
    simp [INITIAL_BACKOFF]
  · rw [h1, backoffDelays_length]
  · intro b outs h
    exact fetchLoop_success_resets MAX_RETRIES b outs h

/-- Witness for `backoff_schedule`: two back-to-back failing calls, fifth
delay (index 4) equals `2^4 = 16` seconds. -/
theorem backoff_schedule_witness :
    (4 < 3 * 2 ∧ (failRun INITIAL_BACKOFF 2).1.getD 4 0 = min (2 ^ 4) MAX_BACKOFF) :=
  ⟨by decide, (backoff_schedule 2 4 (by decide)).1⟩

/-- C7 (confirmed): when an attempt answers HTTP 429 with `Retry-After: n`,
the fetch sleeps exactly `n` seconds before the next attempt instead of the
computed exponential delay, and the stored backoff is not advanced by that
attempt (the following exception attempt still sleeps `min b MAX_BACKOFF`,
exactly as a first failure would); when the header is absent the default
wait is `DEFAULT_RETRY_AFTER = 60` seconds. -/
theorem retry_after_override (b n : Nat) :
    fetch_validator_data b [.rateLimited (some n), .failed, .failed]
      = (none, [n, min b MAX_BACKOFF, min (b * 2) MAX_BACKOFF], b * 2 * 2) ∧
    fetch_validator_data b [.rateLimited none, .failed, .failed]
      = (none, [DEFAULT_RETRY_AFTER, min b MAX_BACKOFF, min (b * 2) MAX_BACKOFF],
          b * 2 * 2) := by
  constructor <;>
    simp [fetch_validator_data, MAX_RETRIES, fetchLoop, exponential_backoff,
      handle_rate_limit]

/-! ## Safeguard monitor (`hyperliquid_validator_safeguard.py`, 476-746)

The safeguard monitor watches one specific validator
(`config['validator_address']`).  `monitor_loop` polls the roster every
`interval` seconds; when the polled `validator_info['isJailed']` is true
and `monitor.in_unjail_wait` is false it starts
`asyncio.create_task(monitor.schedule_unjail(addr, validator_info))`.
`schedule_unjail` sets `self.in_unjail_wait = True`, sends the jailed
alert, sleeps `UNJAIL_WAIT_TIME`, then calls
`unjail_validator(validator_name, validator_info)` with the snapshot
captured when the task was created.  On a true return it resets
`in_unjail_wait = False`; otherwise its `finally` block runs
`if not self.in_unjail_wait: self.in_unjail_wait = False`, which leaves a
true flag untouched.

Under asyncio's single-threaded cooperative loop the synchronous prefix of
the created task (setting `in_unjail_wait`) runs before the `monitor_loop`
coroutine reaches its next check, because the loop always awaits
`asyncio.sleep(interval)` (with `interval ≥ 1`; `args.interval or
CHECK_INTERVAL` cannot be 0) before polling again.  The machine below
therefore sets the flag in the same step that creates the task, and models
the later completion of the task as a separate `fire` event carrying the
exit code of the `hl-node` command. -/

namespace Safeguard

/-- `ValidatorMonitor.unjail_validator` (lines 520-539): runs the unjail
command iff the passed-in snapshot's `isJailed` is true — this is the
snapshot captured when the task was scheduled, not the current state — and
reports success iff the command exit code is 0.  Returns
(command invoked?, returned value). -/
def unjail_validator (capturedIsJailed : Bool) (exitCode : Nat) : Bool × Bool :=
  if capturedIsJailed then (true, decide (exitCode = 0)) else (false, false)

/-- State of the safeguard monitor visible to the claims: the
`in_unjail_wait` flag, the captured `isJailed` of each live
`schedule_unjail` task (oldest first), and counters of jailed alerts sent
and unjail commands executed. -/
structure SGState where
  in_unjail_wait : Bool
  tasks : List Bool
  jailAlerts : Nat
  unjailInvocations : Nat
deriving DecidableEq

/-- Events of the safeguard monitor: one `monitor_loop` poll observing the
specific validator's `isJailed`, or a scheduled `schedule_unjail` task
reaching its unjail attempt with the given command exit code. -/
inductive SGEvent
  | poll (isJailed : Bool)
  | fire (exitCode : Nat)

/-- One event of the safeguard monitor.  A poll with `isJailed` true and
the flag clear creates a task (`asyncio.create_task(schedule_unjail ...)`),
whose first actions — setting `in_unjail_wait` and sending the jailed
alert — run before the next poll (see the section comment); any other poll
changes nothing relevant.  A `fire` completes the oldest task: it calls
`unjail_validator` on the captured snapshot; on success the flag is
cleared, on failure the `finally` block leaves the true flag in place. -/
def sgStep (s : SGState) : SGEvent → SGState
  | .poll isJailed =>
      if isJailed && !s.in_unjail_wait then
        { s with in_unjail_wait := true,
                 tasks := s.tasks ++ [isJailed],
                 jailAlerts := s.jailAlerts + 1 }
      else s
  | .fire exitCode =>
      match s.tasks with
      | [] => s
      | captured :: rest =>
          let r := unjail_validator captured exitCode
          { s with
              in_unjail_wait := if r.2 then false else s.in_unjail_wait,
              tasks := rest,
              unjailInvocations := s.unjailInvocations + (if r.1 then 1 else 0) }

/-- Run the safeguard monitor from a state over a list of events. -/
def sgRun (s : SGState) : List SGEvent → SGState
  | [] => s
  | e :: rest => sgRun (sgStep s e) rest

/-- Initial state of the safeguard monitor (`in_unjail_wait = False`). -/
def sgInit : SGState := ⟨false, [], 0, 0⟩

lemma sgStep_invariant (s : SGState) (e : SGEvent)
    (h : s.tasks.length ≤ 1 ∧ (s.tasks.length = 1 → s.in_unjail_wait = true)) :
    (sgStep s e).tasks.length ≤ 1 ∧
      ((sgStep s e).tasks.length = 1 → (sgStep s e).in_unjail_wait = true) := by
  obtain ⟨hlen, hflag⟩ := h
  cases e with
  | poll isJailed =>
    rw [sgStep]
    by_cases hc : (isJailed && !s.in_unjail_wait) = true
    · rw [if_pos hc]
      have hwait : s.in_unjail_wait = false := by
        rcases Bool.and_eq_true_iff.mp hc with ⟨_, hw⟩
        simpa using hw
      have htasks : s.tasks = [] := by
        cases ht : s.tasks with
        | nil => rfl
        | cons a l =>
          exfalso
          have h1 : s.tasks.length = 1 := by
            rw [ht] at hlen ⊢
            simp only [List.length_cons] at hlen ⊢
            omega
          rw [hflag h1] at hwait
          simp at hwait
      simp [htasks]
    · rw [if_neg hc]
      exact ⟨hlen, hflag⟩
  | fire exitCode =>
    rw [sgStep]
    cases ht : s.tasks with
    | nil => exact ⟨by simp [ht], hflag⟩
    | cons captured rest =>
      simp only
      constructor
      · have := hlen
        rw [ht] at this
        simp only [List.length_cons] at this
        omega
      · intro habs
        exfalso
        have := hlen
        rw [ht] at this
        simp only [List.length_cons] at this habs
        omega

lemma sgRun_invariant (evs : List SGEvent) : ∀ (s : SGState),
    (s.tasks.length ≤ 1 ∧ (s.tasks.length = 1 → s.in_unjail_wait = true)) →
    ((sgRun s evs).tasks.length ≤ 1 ∧
      ((sgRun s evs).tasks.length = 1 → (sgRun s evs).in_unjail_wait = true)) := by
  induction evs with
  | nil => intro s h; exact h
  | cons e rest ih => intro s h; exact ih _ (sgStep_invariant s e h)

/-- C1 (confirmed): for the monitored validator, at most one
`schedule_unjail` task is ever live at a time.  A poll that observes the
validator jailed while `in_unjail_wait` is already true is a no-op — the
single-flight check is the flag test before `asyncio.create_task` — so
repeated or concurrent schedule requests across poll cycles never create a
second concurrent remediation task. -/
theorem single_flight_unjail (evs : List SGEvent) :
    (sgRun sgInit evs).tasks.length ≤ 1 :=
  (sgRun_invariant evs sgInit (by simp [sgInit])).1

/-- Every event is a no-op once the flag is stuck true with no live task. -/
lemma sgRun_stuck (a u : Nat) : ∀ (evs : List SGEvent),
    sgRun ⟨true, [], a, u⟩ evs = ⟨true, [], a, u⟩ := by
  intro evs
  induction evs with
  | nil => rfl
  | cons e rest ih =>
    rw [sgRun]
    cases e with
    | poll isJailed =>
      have : sgStep ⟨true, [], a, u⟩ (SGEvent.poll isJailed) = ⟨true, [], a, u⟩ := by
        rw [sgStep]
        simp
      rw [this]
      exact ih
    | fire exitCode =>
      have : sgStep ⟨true, [], a, u⟩ (SGEvent.fire exitCode) = ⟨true, [], a, u⟩ := by
        rw [sgStep]
      rw [this]
      exact ih

/-- C9 (confirmed): when a scheduled unjail task for a jailed snapshot
completes with a non-zero command exit code, the `finally` block of
`schedule_unjail` (`if not self.in_unjail_wait: self.in_unjail_wait =
False`) leaves the flag stuck at true; from then on, for the rest of the
process lifetime, every further event leaves the state unchanged — no new
remediation task is created and no further jailed alert is sent, even
across later Healthy-to-Jailed transitions. -/
theorem failed_unjail_wedges_monitor (a u e : Nat) (he : e ≠ 0)
    (evs : List SGEvent) :
    sgRun (sgStep ⟨true, [true], a, u⟩ (SGEvent.fire e)) evs = ⟨true, [], a, u + 1⟩ := by
  have hstep : sgStep ⟨true, [true], a, u⟩ (SGEvent.fire e) = ⟨true, [], a, u + 1⟩ := by
    rw [sgStep]
    simp [unjail_validator, he]
  rw [hstep]
  exact sgRun_stuck a (u + 1) evs

/-- Witness for `failed_unjail_wedges_monitor`: exit code 1, followed by
two further jailed polls that schedule nothing. -/
theorem failed_unjail_wedges_monitor_witness :
    (1 : Nat) ≠ 0 ∧
      sgRun (sgStep ⟨true, [true], 1, 0⟩ (SGEvent.fire 1))
        [SGEvent.poll true, SGEvent.poll true] = ⟨true, [], 1, 1⟩ :=
  ⟨by decide, failed_unjail_wedges_monitor 1 0 1 (by decide)
    [SGEvent.poll true, SGEvent.poll true]⟩

/-- The Healthy→Jailed→Healthy scenario of claim C4: the validator is
observed healthy, then jailed (scheduling a task that captures the jailed
snapshot), then healthy again before the 1800 s delay elapses; afterwards
the scheduled task fires with command exit code `e`. -/
def c4Events (e : Nat) : List SGEvent :=
  [SGEvent.poll false, SGEvent.poll true, SGEvent.poll false, SGEvent.fire e]

/-- Claim C4 as stated: in the Healthy→Jailed→Healthy scenario no unjail
command is ever executed (the pending task is cancelled, or its firing
consults the entity's current jail state and performs no invocation). -/
def cancellationClaim : Prop :=
  ∀ e : Nat, (sgRun sgInit (c4Events e)).unjailInvocations = 0

/-- C4 counterexample: with command exit code 0, the scenario executes the
unjail command anyway — the safeguard monitor has no cancellation path, and
`unjail_validator` tests the snapshot captured at scheduling time (whose
`isJailed` is true), not the current state, so the task fires and runs the
command against a validator that is already healthy. -/
theorem cancellation_counterexample : ¬ cancellationClaim := by
  intro h
  exact absurd (h 0) (by decide)

/-- C4 amended: in the Healthy→Jailed→Healthy scenario arriving before the
initial remediation delay elapses, the pending task is not cancelled and
its firing executes exactly one unjail invocation regardless of the
command's exit code, because `unjail_validator` acts on the stale snapshot
captured when the task was scheduled rather than on the entity's current
jail state. -/
theorem stale_snapshot_unjail (e : Nat) :
    (sgRun sgInit (c4Events e)).unjailInvocations = 1 ∧
    (∀ captured : Bool, (unjail_validator captured e).1 = captured) := by
  constructor
  · simp [sgRun, sgStep, c4Events, sgInit, unjail_validator]
  · intro captured
    cases captured <;> simp [unjail_validator]

end Safeguard

/-! ## Twillio jail monitor (`twillio_alert.py`, 111-252)

`HyperliquidMonitor.monitor_loop` keeps one Boolean `last_jailed_status`
(initially `False`).  Each cycle fetches the validator's status; on a fetch
failure (`get_validator_status` returns `None`) the cycle is skipped with
the flag untouched.  When `isJailed` is true and the flag is false it
starts the alert calls and sets the flag; when `isJailed` is false it
clears the flag; repeated `isJailed=true` observations with the flag set
do nothing. -/

namespace TwillioAlert

/-- One cycle of `monitor_loop`: `last` is `last_jailed_status`, `obs` the
fetched `isJailed` (`none` models a failed fetch).  Returns the new flag
and whether the jailed alert (`alert_all_numbers`) was started. -/
def twStep (last : Bool) (obs : Option Bool) : Bool × Bool :=
  match obs with
  | none => (last, false)
  | some true => if last then (true, false) else (true, true)
  | some false => (false, false)

/-- The per-cycle alert decisions of `monitor_loop` along a sequence of
observations, starting from flag `last`. -/
def twAlerts (last : Bool) : List (Option Bool) → List Bool
  | [] => []
  | o :: rest => (twStep last o).2 :: twAlerts (twStep last o).1 rest

lemma twAlerts_from_true (obs : List (Option Bool))
    (h : ∀ o ∈ obs, o ≠ some false) : (twAlerts true obs).count true = 0 := by
  induction obs with
  | nil => rfl
  | cons o rest ih =>
    have hrest : ∀ o ∈ rest, o ≠ some false :=
      fun x hx => h x (List.mem_cons_of_mem _ hx)
    cases o with
    | none =>
      rw [twAlerts]
      simp only [twStep, List.count_cons]
      rw [ih hrest]
      simp
    | some b =>
      cases b with
      | false => exact absurd rfl (h (some false) (List.mem_cons_self _ _))
      | true =>
        rw [twAlerts]
        simp only [twStep, if_true, List.count_cons]
        rw [ih hrest]
        simp

/-- Along any stretch of observations containing no healthy
(`isJailed=false`) observation — an uninterrupted jailed period, possibly
interleaved with failed fetches — the twillio monitor starts the jailed
alert at most once, from any starting value of `last_jailed_status`:
repeated identical `isJailed=true` snapshots produce no duplicate alert,
and only an intervening `isJailed=false` observation clears the flag. -/
lemma twillio_dedup (last : Bool) (obs : List (Option Bool))
    (h : ∀ o ∈ obs, o ≠ some false) :
    (twAlerts last obs).count true ≤ 1 := by
  revert h
  induction obs generalizing last with
  | nil => intro _; simp [twAlerts]
  | cons o rest ih =>
    intro h
    have hrest : ∀ o ∈ rest, o ≠ some false :=
      fun x hx => h x (List.mem_cons_of_mem _ hx)
    cases o with
    | none =>
      rw [twAlerts]
      simp only [twStep, List.count_cons]
      simpa using ih last hrest
    | some b =>
      cases b with
      | false => exact absurd rfl (h (some false) (List.mem_cons_self _ _))
      | true =>
        cases last with
        | true =>
          rw [twAlerts]
          simp only [twStep, if_true, List.count_cons]
          rw [twAlerts_from_true rest hrest]
          simp
        | false =>
          rw [twAlerts]
          have h0 := twAlerts_from_true rest hrest
          simp [twStep, List.count_cons, h0]

end TwillioAlert

/-! ## Jailed-alert deduplication across the cited monitors (claim C6)

The claim cites both `twillio_alert.py` `monitor_loop` and the safeguard
`monitor_loop`.  The twillio monitor satisfies it (`twillio_dedup`).  The
safeguard monitor does not: its `unjail_validator` returns
`result.returncode == 0` with no settle-and-recheck, so when the unjail
command exits 0 while the validator is in fact still jailed,
`schedule_unjail` resets `in_unjail_wait = False`, and the next poll —
still observing `isJailed=true`, with no intervening healthy
observation — creates a new task and sends a second jailed alert. -/

namespace Safeguard

/-- Whether an event is a task completion whose unjail command reported
success (`result.returncode == 0`).  No settle-and-recheck follows: a zero
exit code clears `in_unjail_wait` even when the validator is still
jailed. -/
def fireSuccess : SGEvent → Bool
  | .fire e => decide (e = 0)
  | .poll _ => false

/-- True unless the event is a poll observing `isJailed = false`; task
completions carry no observation.  An event list in which this holds
everywhere is an uninterrupted jailed period. -/
def nonHealthy : SGEvent → Bool
  | .poll j => j
  | .fire _ => true

/-- One event neither touches the jailed-alert counter nor the flag, or it
is a task creation from a clear flag: `+1` alert and the flag set.  (Fires
whose command did not report success never clear the flag.) -/
lemma sgStep_alert_flag (s : SGState) (ev : SGEvent)
    (hs : fireSuccess ev = false) :
    ((sgStep s ev).jailAlerts = s.jailAlerts ∧
      (sgStep s ev).in_unjail_wait = s.in_unjail_wait) ∨
    (s.in_unjail_wait = false ∧ (sgStep s ev).jailAlerts = s.jailAlerts + 1 ∧
      (sgStep s ev).in_unjail_wait = true) := by
  cases ev with
  | poll j =>
    by_cases hc : (j && !s.in_unjail_wait) = true
    · right
      have hwait : s.in_unjail_wait = false := by
        rcases Bool.and_eq_true_iff.mp hc with ⟨_, hw⟩
        simpa using hw
      rw [sgStep, if_pos hc]
      exact ⟨hwait, rfl, rfl⟩
    · left
      rw [sgStep, if_neg hc]
      exact ⟨rfl, rfl⟩
  | fire e =>
    left
    have he0 : decide (e = 0) = false := by simpa [fireSuccess] using hs
    rw [sgStep]
    cases ht : s.tasks with
    | nil => exact ⟨rfl, rfl⟩
    | cons c rest =>
      have hr2 : (unjail_validator c e).2 = false := by
        cases c <;> simp [unjail_validator, he0]
      simp [hr2]

/-- Along any event stretch holding no success-reporting unjail
completion, the safeguard monitor sends at most one more jailed alert when
its flag is clear, and none when a task is already in flight. -/
lemma sgRun_alerts_bound : ∀ (evs : List SGEvent) (s : SGState),
    (∀ ev ∈ evs, fireSuccess ev = false) →
    (sgRun s evs).jailAlerts
      ≤ s.jailAlerts + (if s.in_unjail_wait then 0 else 1) := by
  intro evs
  induction evs with
  | nil =>
    intro s _
    cases h : s.in_unjail_wait <;> simp [sgRun]
  | cons ev rest ih =>
    intro s hev
    have hrest : ∀ e ∈ rest, fireSuccess e = false :=
      fun e he => hev e (List.mem_cons_of_mem _ he)
    have hthis : fireSuccess ev = false := hev ev (List.mem_cons_self _ _)
    rw [sgRun]
    rcases sgStep_alert_flag s ev hthis with ⟨ha, hf⟩ | ⟨hw, ha, hf⟩
    · calc (sgRun (sgStep s ev) rest).jailAlerts
          ≤ (sgStep s ev).jailAlerts
            + (if (sgStep s ev).in_unjail_wait then 0 else 1) := ih _ hrest
        _ = s.jailAlerts + (if s.in_unjail_wait then 0 else 1) := by rw [ha, hf]
    · have hih := ih (sgStep s ev) hrest
      rw [ha, hf] at hih
      rw [hw]
      simp only [eq_self_iff_true, if_true] at hih
      simp only [Bool.false_eq_true, if_false]
      omega

end Safeguard

/-- Claim C6 as stated, for the cited safeguard `monitor_loop`: along any
run from the initial state in which every poll observes `isJailed = true`
(an uninterrupted jailed period, with no intervening healthy observation),
at most one jailed alert is sent. -/
def safeguardDedupClaim : Prop :=
  ∀ evs : List Safeguard.SGEvent,
    (∀ ev ∈ evs, Safeguard.nonHealthy ev = true) →
    (Safeguard.sgRun Safeguard.sgInit evs).jailAlerts ≤ 1

/-- C6 counterexample: a jailed poll schedules a task and sends the first
jailed alert; the task's unjail command exits 0 (reported success, no
recheck), clearing `in_unjail_wait`; the next poll still observes
`isJailed = true` — no intervening healthy observation — and sends a
second jailed alert for the same uninterrupted jailed period. -/
theorem safeguard_dedup_counterexample : ¬ safeguardDedupClaim := by
  intro h
  exact absurd
    (h [Safeguard.SGEvent.poll true, Safeguard.SGEvent.fire 0,
        Safeguard.SGEvent.poll true] (by decide))
    (by decide)

/-- C6 amended: the twillio monitor emits at most one jailed alert per
uninterrupted jailed period (repeated identical `isJailed=true` snapshots
produce no duplicate; a new alert requires an intervening
`isJailed=false` observation).  The safeguard monitor guarantees this only
while no unjail attempt reports command success: along any event stretch
with no success-reporting unjail completion it sends at most one jailed
alert (none when a task is already in flight) — a second jailed alert
within the same uninterrupted jailed period occurs exactly when a
returncode-0 unjail clears the flag while the validator stays jailed. -/
theorem jailed_alert_dedup_per_monitor :
    (∀ (last : Bool) (obs : List (Option Bool)), (∀ o ∈ obs, o ≠ some false) →
      (TwillioAlert.twAlerts last obs).count true ≤ 1) ∧
    (∀ (s : Safeguard.SGState) (evs : List Safeguard.SGEvent),
      (∀ ev ∈ evs, Safeguard.fireSuccess ev = false) →
      (Safeguard.sgRun s evs).jailAlerts
        ≤ s.jailAlerts + (if s.in_unjail_wait then 0 else 1)) :=
  ⟨TwillioAlert.twillio_dedup,
   fun s evs h => Safeguard.sgRun_alerts_bound evs s h⟩

/-- Witness for `jailed_alert_dedup_per_monitor`: four twillio polls
around a failed fetch give at most one alert, and a safeguard run whose
unjail attempt fails (exit code 1) stays within one jailed alert. -/
theorem jailed_alert_dedup_per_monitor_witness :
    (TwillioAlert.twAlerts false [some true, some true, none, some true]).count true
      ≤ 1 ∧
    (Safeguard.sgRun Safeguard.sgInit
        [Safeguard.SGEvent.poll true, Safeguard.SGEvent.fire 1,
         Safeguard.SGEvent.poll true]).jailAlerts
      ≤ Safeguard.sgInit.jailAlerts
        + (if Safeguard.sgInit.in_unjail_wait then 0 else 1) :=
  ⟨jailed_alert_dedup_per_monitor.1 false [some true, some true, none, some true]
    (by decide),
   jailed_alert_dedup_per_monitor.2 Safeguard.sgInit
    [Safeguard.SGEvent.poll true, Safeguard.SGEvent.fire 1,
     Safeguard.SGEvent.poll true] (by decide)⟩

/-! ## Telegram retrying monitor (`telegram_alert.py`, 32-197)

`ValidatorMonitor.monitor_loop` polls every `CHECK_INTERVAL = 60` s.  On a
jailed observation it records `last_jailed_time` on first detection; once
`time_since_jail >= UNJAIL_WAIT_TIME` (1800 s), if `retry_count >=
MAX_RETRIES` (5) it logs the terminal "Max retries reached. Manual
intervention required." error, else it attempts `unjail_validator()`
whenever no previous attempt exists or `time_since_attempt >=
RETRY_WAIT_TIME` (600 s).  `unjail_validator` increments the attempt
counter, runs the command, on verified success resets
`retry_count`/`last_jailed_time` (and the loop breaks), and in all cases
sets `last_unjail_attempt` to the current time.  A healthy observation
resets `last_jailed_time` and `retry_count`.

The run below specialises to the scenario of claim C5: the entity stays
jailed at every poll and every unjail attempt fails.  Polls happen at
`t = 60*k`, unjail attempts take negligible time (on the failure path
`unjail_validator` has no settle sleep: the 10 s `time.sleep` runs only
when the command reports `status == ok`). -/

namespace TelegramAlert

/-- `CHECK_INTERVAL` of `telegram_alert.py` (seconds). -/
def CHECK_INTERVAL : Nat := 60

/-- `UNJAIL_WAIT_TIME` of `telegram_alert.py` (seconds). -/
def UNJAIL_WAIT_TIME : Nat := 1800

/-- `RETRY_WAIT_TIME` of `telegram_alert.py` (seconds). -/
def RETRY_WAIT_TIME : Nat := 600

/-- `MAX_RETRIES` of `telegram_alert.py`. -/
def MAX_RETRIES : Nat := 5

/-- The monitor's mutable state, plus the observable record of unjail
invocation times (newest first) and whether the terminal max-retries error
has been surfaced. -/
structure TGState where
  last_jailed_time : Option Nat
  last_unjail_attempt : Option Nat
  retry_count : Nat
  invocations : List Nat
  exhausted : Bool
deriving DecidableEq

/-- One iteration of `monitor_loop` at wall-clock time `t`, observing
`jailed`, with `unjailSucceeds` the verified outcome should an unjail
attempt run this iteration. -/
def tgStep (s : TGState) (t : Nat) (jailed : Bool) (unjailSucceeds : Bool) : TGState :=
  if jailed then
    let s1 := if s.last_jailed_time.isNone
      then { s with last_jailed_time := some t, retry_count := 0 } else s
    match s1.last_jailed_time with
    | none => s1
    | some jt =>
      if UNJAIL_WAIT_TIME ≤ t - jt then
        if MAX_RETRIES ≤ s1.retry_count then
          { s1 with exhausted := true }
        else
          let shouldRetry : Bool := match s1.last_unjail_attempt with
            | none => true
            | some ta => decide (RETRY_WAIT_TIME ≤ t - ta)
          if shouldRetry then
            if unjailSucceeds then
              { s1 with retry_count := 0, last_jailed_time := none,
                        last_unjail_attempt := some t,
                        invocations := t :: s1.invocations }
            else
              { s1 with retry_count := s1.retry_count + 1,
                        last_unjail_attempt := some t,
                        invocations := t :: s1.invocations }
          else s1
      else s1
  else { s with last_jailed_time := none, retry_count := 0 }

/-- Initial monitor state. -/
def tgInit : TGState := ⟨none, none, 0, [], false⟩

/-- `n` poll iterations of the always-jailed, always-failing scenario,
polling at `t = 60*k`. -/
def tgRun : Nat → TGState
  | 0 => tgInit
  | n + 1 => tgStep (tgRun n) (CHECK_INTERVAL * n) true false

/-- The state the always-jailed, always-failing run settles into. -/
def tgFinal : TGState :=
  ⟨some 0, some 4200, 5, [4200, 3600, 3000, 2400, 1800], true⟩

lemma tgStep_exhausted (t : Nat) (ht : UNJAIL_WAIT_TIME ≤ t) :
    tgStep tgFinal t true false = tgFinal := by
  have h1 : UNJAIL_WAIT_TIME ≤ t - 0 := by omega
  simp [tgStep, tgFinal, h1, MAX_RETRIES]

set_option maxRecDepth 8000 in
/-- C5 (confirmed): with the entity jailed at every poll and every unjail
attempt failing, the retrying monitor performs exactly `MAX_RETRIES = 5`
unjail invocations — the first once 1800 s (`UNJAIL_WAIT_TIME`) have
elapsed since the jailing was first observed at `t = 0`, consecutive
invocations separated by the fixed 600 s retry interval
(`RETRY_WAIT_TIME`) — after which the terminal max-retries error is
surfaced and no further unjail invocation ever occurs while the jailed
period persists (the state is a fixpoint of every later poll). -/
theorem remediation_retry_schedule (n : Nat) (hn : 72 ≤ n) :
    (tgRun n).invocations = [4200, 3600, 3000, 2400, 1800] ∧
    (tgRun n).invocations.length = MAX_RETRIES ∧
    (∀ i, i < (tgRun n).invocations.length - 1 →
      (tgRun n).invocations.getD i 0
        = (tgRun n).invocations.getD (i + 1) 0 + RETRY_WAIT_TIME) ∧
    (tgRun n).invocations.getLast? = some UNJAIL_WAIT_TIME ∧
    (tgRun n).exhausted = true := by
  have hfix : tgRun n = tgFinal := by
    induction n, hn using Nat.le_induction with
    | base => decide
    | succ n hn ih =>
      rw [tgRun, ih]
      refine tgStep_exhausted _ ?_
      simp only [UNJAIL_WAIT_TIME, CHECK_INTERVAL]
      omega
  rw [hfix]
  exact ⟨rfl, by decide, by decide, by decide, rfl⟩

/-- Witness for `remediation_retry_schedule` at the first settled poll
count. -/
theorem remediation_retry_schedule_witness :
    (72 ≤ 72) ∧ (tgRun 72).invocations = [4200, 3600, 3000, 2400, 1800] :=
  ⟨by decide, (remediation_retry_schedule 72 (by decide)).1⟩

end TelegramAlert

/-! ## Startup configuration validation

`hyperliquid_validator_safeguard.py`: `ConfigLoader.validate_config`
(357-375) collects every required field that is falsy (absent env var or
empty string) and returns `False` when any is missing; `main` (754-796)
then logs "Invalid configuration. Exiting..." and *returns* from the
coroutine, so `asyncio.run` completes normally and the process exits with
status 0.  With a valid config (and no test flags) `main` enters
`monitor_loop`.

`telegram_alert.py` `main` (251-272): a failed env-file load, or a missing
`PRIVATE_KEY`/`VALIDATOR_ADDRESS`, logs an error and calls `sys.exit(1)`;
otherwise it starts `monitor_loop`. -/

namespace Startup

/-- Python truthiness of a configuration value: `None` and the empty
string are falsy (`if not config.get(field)`). -/
def present (v : Option String) : Bool :=
  match v with
  | none => false
  | some s => !s.isEmpty

/-- The required configuration surface checked by
`ConfigLoader.validate_config` of the safeguard monitor. -/
structure Config where
  telegram_token : Option String
  telegram_chat_id_specific : Option String
  telegram_chat_id_all : Option String
  validator_address : Option String
  private_key : Option String
  twilio_sid : Option String
  twilio_token : Option String
  twilio_from : Option String
deriving DecidableEq

/-- `ConfigLoader.validate_config`: true iff every required field is
present (the code returns `False` exactly when its `missing` list is
nonempty). -/
def validate_config (c : Config) : Bool :=
  present c.telegram_token && present c.telegram_chat_id_specific &&
  present c.telegram_chat_id_all && present c.validator_address &&
  present c.private_key && present c.twilio_sid && present c.twilio_token &&
  present c.twilio_from

/-- Observable outcome of a monitor's startup. -/
inductive MainOutcome
  | entersLoop
  | exitsWith (code : Nat) (loggedError : Bool)
deriving DecidableEq

/-- Startup path of the safeguard monitor's `main` (no test flags): an
invalid config logs the error and returns, ending the process with exit
status 0; a valid one reaches `monitor_loop`. -/
def safeguardMain (c : Config) : MainOutcome :=
  if validate_config c then MainOutcome.entersLoop
  else MainOutcome.exitsWith 0 true

/-- Startup path of `telegram_alert.py`'s `main`: `env` is `none` when the
`.env_hyper` file cannot be read, otherwise the `PRIVATE_KEY` and
`VALIDATOR_ADDRESS` values. -/
def telegramMain (env : Option (Option String × Option String)) : MainOutcome :=
  match env with
  | none => MainOutcome.exitsWith 1 true
  | some (pk, addr) =>
      if present pk && present addr then MainOutcome.entersLoop
      else MainOutcome.exitsWith 1 true

/-- Claim C8 as stated, for the cited safeguard entry point: a missing
required credential makes the process exit with a NON-ZERO code after a
descriptive error. -/
def fatalConfigClaim : Prop :=
  ∀ c : Config, validate_config c = false →
    ∃ code, code ≠ 0 ∧ safeguardMain c = MainOutcome.exitsWith code true

/-- A config with every required value present except the remediation
private key. -/
def cMissingKey : Config :=
  ⟨some "t", some "cs", some "ca", some "0xaddr", none,
    some "sid", some "tok", some "from"⟩

/-- A config with every required value present. -/
def cFull : Config :=
  ⟨some "t", some "cs", some "ca", some "0xaddr", some "pk",
    some "sid", some "tok", some "from"⟩

/-- C8 counterexample: with the private key missing, the safeguard monitor
refuses to start and logs "Invalid configuration. Exiting...", but `main`
merely returns, so the process terminates with exit status 0 — not the
claimed non-zero code. -/
theorem fatal_config_counterexample : ¬ fatalConfigClaim := by
  intro h
  obtain ⟨code, hcode, heq⟩ := h cMissingKey (by decide)
  have : code = 0 := by
    have heval : safeguardMain cMissingKey = MainOutcome.exitsWith 0 true := by decide
    rw [heval] at heq
    cases heq
    rfl
  exact hcode this

/-- C8 amended: a missing required credential makes both monitors refuse
to start the monitoring loop after emitting a descriptive error message;
the telegram monitor exits with code 1, but the safeguard monitor's `main`
returns normally and the process exits with code 0.  With all required
values present, startup proceeds to the monitoring loop in both. -/
theorem config_validation (c : Config) (pk addr : Option String) :
    (validate_config c = false →
      safeguardMain c = MainOutcome.exitsWith 0 true) ∧
    (validate_config c = true → safeguardMain c = MainOutcome.entersLoop) ∧
    ((present pk && present addr) = false →
      telegramMain (some (pk, addr)) = MainOutcome.exitsWith 1 true) ∧
    ((present pk && present addr) = true →
      telegramMain (some (pk, addr)) = MainOutcome.entersLoop) ∧
    telegramMain none = MainOutcome.exitsWith 1 true := by
  refine ⟨?_, ?_, ?_, ?_, rfl⟩
  · intro h
    simp [safeguardMain, h]
  · intro h
    simp [safeguardMain, h]
  · intro h
    simp [telegramMain, h]
  · intro h
    simp [telegramMain, h]

/-- Witness for `config_validation`: the missing-key config is refused
with exit code 0, the full config reaches the loop, and a telegram env
missing the validator address exits 1. -/
theorem config_validation_witness :
    safeguardMain cMissingKey = MainOutcome.exitsWith 0 true ∧
    safeguardMain cFull = MainOutcome.entersLoop ∧
    telegramMain (some (some "pk", none)) = MainOutcome.exitsWith 1 true :=
  ⟨(config_validation cMissingKey none none).1 (by decide),
   (config_validation cFull none none).2.1 (by decide),
   (config_validation cFull (some "pk") none).2.2.1 (by decide)⟩

end Startup

/-! ## Cached roster fetch (`hyperliquid_validator_safeguard.py`, 645-666)

Module-level `fetch_validator_data` with the global cache
`_last_fetched_data` / `_last_fetch_time`:

```
current_time = time.time()
if _last_fetched_data and (current_time - _last_fetch_time < CACHE_EXPIRY):
    return _last_fetched_data
try:
    response = requests.post(...)
    response.raise_for_status()
    _last_fetched_data = response.json()
    _last_fetch_time = current_time
    return _last_fetched_data
except Exception as e:
    logging.error(...)
    return None
```

The roster snapshot is abstracted to a `List Nat`; note the Python
truthiness test `if _last_fetched_data` treats an empty roster list the
same as no cache. -/

namespace Cached

/-- `CACHE_EXPIRY` of `hyperliquid_validator_safeguard.py` (seconds). -/
def CACHE_EXPIRY : Nat := 60

/-- The global cache `_last_fetched_data` / `_last_fetch_time`. -/
structure Cache where
  last_fetched_data : Option (List Nat)
  last_fetch_time : Nat
deriving DecidableEq

/-- Python truthiness of `_last_fetched_data`: `None` and `[]` are falsy. -/
def truthy (d : Option (List Nat)) : Bool :=
  match d with
  | none => false
  | some l => !l.isEmpty

/-- The cached `fetch_validator_data` at wall-clock time `now`; `net` is
the network outcome of the POST (`some d` for a 2xx roster `d`, `none`
when the request or `raise_for_status`/`json()` raises).  Returns the
returned value and the new cache state. -/
def fetch_validator_data_cached (st : Cache) (now : Nat) (net : Option (List Nat)) :
    Option (List Nat) × Cache :=
  if truthy st.last_fetched_data && decide (now - st.last_fetch_time < CACHE_EXPIRY) then
    (st.last_fetched_data, st)
  else
    match net with
    | some d => (some d, ⟨some d, now⟩)
    | none => (none, st)

/-- Claim C10's clause (a) as stated: whenever a cached value exists and
less than 60 s have passed since the last successful fetch, the call
returns the cached snapshot and leaves the cache untouched. -/
def cachedFetchClaim : Prop :=
  ∀ (st : Cache) (now : Nat) (net : Option (List Nat)),
    st.last_fetched_data ≠ none → now - st.last_fetch_time < CACHE_EXPIRY →
      fetch_validator_data_cached st now net = (st.last_fetched_data, st)

/-- C10 counterexample: a cached *empty* roster (`_last_fetched_data =
[]`) is falsy in Python, so 30 s after caching it the code refetches and
overwrites the cache instead of returning the cached snapshot. -/
theorem cached_fetch_counterexample : ¬ cachedFetchClaim := by
  intro h
  exact absurd (h ⟨some [], 0⟩ 30 (some [7]) (by simp) (by decide)) (by decide)

/-- C10 amended: the cached fetch is atomic, with clause (a) restricted to
a *non-empty* cached snapshot (the truthiness test treats an empty roster
as no cache): (a) with a truthy cached value younger than 60 s, the cached
snapshot is returned and both cache fields are untouched; otherwise (b) a
successful network fetch returns the fresh data and updates both cache
fields together, and (c) a failed fetch returns `None` with both cache
fields unchanged; moreover once the cache is 60 s or older the returned
value is exactly the network outcome — a stale snapshot past the expiry is
never returned. -/
theorem cached_fetch_atomic (st : Cache) (now : Nat) (net : Option (List Nat)) :
    (truthy st.last_fetched_data = true → now - st.last_fetch_time < CACHE_EXPIRY →
      fetch_validator_data_cached st now net = (st.last_fetched_data, st)) ∧
    (∀ d, net = some d →
      ¬(truthy st.last_fetched_data = true ∧ now - st.last_fetch_time < CACHE_EXPIRY) →
      fetch_validator_data_cached st now net = (some d, ⟨some d, now⟩)) ∧
    (net = none →
      ¬(truthy st.last_fetched_data = true ∧ now - st.last_fetch_time < CACHE_EXPIRY) →
      fetch_validator_data_cached st now net = (none, st)) ∧
    (CACHE_EXPIRY ≤ now - st.last_fetch_time →
      (fetch_validator_data_cached st now net).1 = net) := by
  have hcond : ∀ (hmiss : ¬(truthy st.last_fetched_data = true ∧
        now - st.last_fetch_time < CACHE_EXPIRY)),
      (truthy st.last_fetched_data
        && decide (now - st.last_fetch_time < CACHE_EXPIRY)) = false := by
    intro hmiss
    cases htr : truthy st.last_fetched_data with
    | false => simp
    | true =>
      simp only [Bool.true_and, decide_eq_false_iff_not]
      intro hb
      exact hmiss ⟨htr, hb⟩
  refine ⟨?_, ?_, ?_, ?_⟩
  · intro ht hf
    simp [fetch_validator_data_cached, ht, hf]
  · intro d hd hmiss
    unfold fetch_validator_data_cached
    rw [if_neg (by simp [hcond hmiss]), hd]
  · intro hd hmiss
    unfold fetch_validator_data_cached
    rw [if_neg (by simp [hcond hmiss]), hd]
  · intro hstale
    have hb : ¬ (now - st.last_fetch_time < CACHE_EXPIRY) := by omega
    unfold fetch_validator_data_cached
    rw [if_neg (by simp [hb])]
    cases net <;> simp

/-- Witness for `cached_fetch_atomic`: non-empty fresh cache is served
unchanged even when the network would fail; an expired cache yields the
network outcome. -/
theorem cached_fetch_atomic_witness :
    fetch_validator_data_cached ⟨some [3], 0⟩ 30 none = (some [3], ⟨some [3], 0⟩) ∧
    (fetch_validator_data_cached ⟨some [3], 0⟩ 60 (some [9])).1 = some [9] :=
  ⟨(cached_fetch_atomic ⟨some [3], 0⟩ 30 none).1 (by decide) (by decide),
   (cached_fetch_atomic ⟨some [3], 0⟩ 60 (some [9])).2.2.2 (by decide)⟩

end Cached

end HLExporter
